import Mathlib

/-! # sir: a multi-sink report router

A shallow embedding of `sir/sir.hpp` and `sir.cpp`: the category and option
masks, the reporter (`basic_reporter`) with its ordered list of bound output
objects, and the report stream (`basic_reporterstream`) that accumulates one
line in a string buffer and hands it to the reporter when it is destroyed.

Conventions of the embedding

* `log_type` and `option_type` are `unsigned long`; they are natural numbers
  here.  The only arithmetic on them is `&` and `|`, which cannot overflow.
* An output object (`basic_reportbase*`) is identified by a number.  What the
  object does with a line is outside the reporter; the embedding records the
  sequence of `writeline` calls instead.
* `new streambuf_type` allocates a string buffer that no code ever deletes.
  The buffers live in a list (`State.bufs`) and a stream refers to its buffer
  by position, so that copies of a stream alias one buffer.
* `std::ctime` is outside the repository: the text it returns is an argument
  of the stream constructor.
* `operator()` returns its local stream by value; the embedding takes the
  returned object to be that local (no intermediate copy is made and
  destroyed on return).
-/

namespace sir

/-! ## Masks (`sir.hpp` 36-40, `sir.cpp` 25-38) -/

abbrev log_type := Nat
abbrev option_type := Nat

/-- The value `std::numeric_limits<unsigned long>::max()` for a 64 bit `unsigned long`. -/
def ulong_max : Nat := 2 ^ 64 - 1

def debug : log_type := 0x1
def error : log_type := 0x2
def warning : log_type := 0x4
def fatal : log_type := 0x8
def log : log_type := 0x10
def screen : log_type := 0x20
def log_all : log_type := ulong_max

def timestamp : option_type := 0x1
def linefeeds : option_type := 0x2
def modulename : option_type := 0x4
def option_all : option_type := ulong_max

/-- The conversion of an integer to `bool` in a condition or a `bool` argument. -/
def to_bool (n : Nat) : Bool := n != 0

/-! ## Output objects -/

/-- One call `obj->writeline(str, endl)` on the output object `obj`. -/
structure writeline_call where
  obj : Nat
  str : String
  endl : Bool
deriving DecidableEq, Repr

/-! ## The reporter (`sir.hpp` 184-281) -/

/-- The data members of `basic_reporter`: `mOutput` is the `std::list` of
`output_item` pairs (mask first, output object second). -/
structure basic_reporter where
  mOutput : List (log_type × Nat)
  mModuleName : String
  mOptions : option_type
deriving DecidableEq, Repr

namespace basic_reporter

/-- The constructor `basic_reporter(const string_type &module, option_type options = option_all)`. -/
def with_module (module : String) (options : option_type := option_all) : basic_reporter :=
  { mOutput := [], mModuleName := module, mOptions := options ||| modulename }

/-- The constructor `basic_reporter(option_type options)`; the module name is
default constructed, the empty string. -/
def with_options (options : option_type) : basic_reporter :=
  { mOutput := [], mModuleName := "", mOptions := options }

/-- The `while` loop of `report`, from the iterator position `itOut` on: the
`writeline` calls it makes, in order.  The flag is read from the member
`mOptions` of the reporter. -/
def report_loop (r : basic_reporter) (log : log_type) (line : String) :
    List (log_type × Nat) → List writeline_call
  | [] => []
  | itOut :: rest =>
    if to_bool (log &&& itOut.1) then
      { obj := itOut.2, str := line, endl := to_bool (r.mOptions &&& linefeeds) }
        :: report_loop r log line rest
    else
      report_loop r log line rest

/-- The member `report(log, line, options)`: the `writeline` calls it makes.
The parameter `options` is not used by the body. -/
def report (r : basic_reporter) (log : log_type) (line : String) (_options : option_type) :
    List writeline_call :=
  r.report_loop log line r.mOutput

/-- The member `module()`. -/
def module (r : basic_reporter) : String := r.mModuleName

/-- The member `bind(obj, log = log_all)`: `mOutput.push_back(output_item(log, obj))`. -/
def bind (r : basic_reporter) (obj : Nat) (log : log_type := log_all) : basic_reporter :=
  { r with mOutput := r.mOutput ++ [(log, obj)] }

end basic_reporter

/-! ## Program state -/

/-- The reporter, the string buffers allocated so far, and two records of what
happened: every invocation of `report` (`reports`) and every `writeline`
call made on an output object (`output`), oldest first. -/
structure State where
  reporter : basic_reporter
  bufs : List String
  reports : List (log_type × String × option_type)
  output : List writeline_call
deriving DecidableEq, Repr

/-- A freshly constructed reporter and nothing else. -/
def State.init (r : basic_reporter) : State :=
  { reporter := r, bufs := [], reports := [], output := [] }

/-- The member `bind` on the reporter of the state. -/
def State.bind (s : State) (obj : Nat) (log : log_type := log_all) : State :=
  { s with reporter := s.reporter.bind obj log }

/-! ## The report stream (`sir.hpp` 85-150) -/

/-- The data members of `basic_reporterstream`.  `mReporter` points to the
reporter of the state; `mStream` is the stream, given by the position of the
buffer its `rdbuf()` points to. -/
structure basic_reporterstream where
  mStream : Nat
  mLog : log_type
  mOptions : option_type
deriving DecidableEq, Repr

/-- What `mStream << value` inserts for the values the program appends:
C strings and integers (in the classic locale). -/
inductive Value where
  | str (s : String)
  | int (n : Int)
deriving DecidableEq, Repr

/-- The text of a value as the stream formats it. -/
def Value.format : Value → String
  | .str s => s
  | .int n => toString n

/-- The C string `tstr` after `tstr[24] = 0`, where `tstr` is the text
returned by `std::ctime`: the characters before the first terminator. -/
def cut_ctime (tstr : String) : String :=
  String.mk ((tstr.data.take 24).takeWhile (fun c => c != Char.ofNat 0))

namespace basic_reporterstream

/-- The protected constructor `basic_reporterstream(reporter, log, options)`:
a new buffer is allocated, then the time text and the module text are
inserted as the options say.  `tstr` is the result of `std::ctime`. -/
def construct (s : State) (tstr : String) (log : log_type) (options : option_type) :
    basic_reporterstream × State :=
  let buf0 : String := ""
  let buf1 : String :=
    if to_bool (options &&& timestamp) then buf0 ++ cut_ctime tstr ++ " " else buf0
  let buf2 : String :=
    if to_bool (options &&& modulename) then buf1 ++ "[" ++ s.reporter.module ++ "] " else buf1
  ({ mStream := s.bufs.length, mLog := log, mOptions := options },
   { s with bufs := s.bufs ++ [buf2] })

/-- The copy constructor: the new stream is built on `other.mStream.rdbuf()`. -/
def copy (other : basic_reporterstream) : basic_reporterstream :=
  { mStream := other.mStream, mLog := other.mLog, mOptions := other.mOptions }

/-- The destructor: if `rdbuf()` yields a buffer, `report` is called with the
category, the current text of the buffer and the options of the stream. -/
def destroy (h : basic_reporterstream) (s : State) : State :=
  match s.bufs[h.mStream]? with
  | some str =>
    { s with
      reports := s.reports ++ [(h.mLog, str, h.mOptions)]
      output := s.output ++ s.reporter.report h.mLog str h.mOptions }
  | none => s

/-- The member `operator<<`: `mStream << out`. -/
def shl (h : basic_reporterstream) (out : Value) (s : State) : State :=
  { s with bufs := s.bufs.modify (fun b => b ++ out.format) h.mStream }

/-- A chain `h << v1 << ... << vn`. -/
def shl_all (h : basic_reporterstream) (outs : List Value) (s : State) : State :=
  outs.foldl (fun st v => h.shl v st) s

/-- The text `buf->str()` of the buffer of the stream, if there is one. -/
def text (h : basic_reporterstream) (s : State) : Option String :=
  s.bufs[h.mStream]?

end basic_reporterstream

/-- The member `operator()(log, options)` of the reporter: a stream is
constructed and returned (`imbue` only sets the locale of the stream). -/
def State.call (s : State) (tstr : String) (log : log_type) (options : option_type) :
    basic_reporterstream × State :=
  basic_reporterstream.construct s tstr log options

/-- The member `operator()(log = log_all)`: `operator()(log, mOptions)`. -/
def State.call_default (s : State) (tstr : String) (log : log_type := log_all) :
    basic_reporterstream × State :=
  s.call tstr log s.reporter.mOptions

/-- The text `format v1 ++ ... ++ format vn`. -/
def format_all : List Value → String
  | [] => ""
  | v :: vs => v.format ++ format_all vs

/-- Insertions made through either of two streams: `true` selects `h`,
`false` selects `k`. -/
def shl_either (h k : basic_reporterstream) (ops : List (Bool × Value)) (s : State) : State :=
  ops.foldl (fun st p => (if p.1 then h else k).shl p.2 st) s

/-- The text the constructor leaves in the new buffer: the time part, then
the module part. -/
def header (r : basic_reporter) (tstr : String) (options : option_type) : String :=
  (if options &&& timestamp ≠ 0 then cut_ctime tstr ++ " " else "") ++
    (if options &&& modulename ≠ 0 then "[" ++ r.mModuleName ++ "] " else "")

/-- A reporter after a sequence of `bind` calls, `(mask, object)` each. -/
def bind_all (r : basic_reporter) (binds : List (log_type × Nat)) : basic_reporter :=
  binds.foldl (fun acc b => acc.bind b.2 b.1) r

/-- The values of `ops` inserted through the stream that `b` selects, in order. -/
def chosen (b : Bool) (ops : List (Bool × Value)) : List Value :=
  (ops.filter (fun p => p.1 == b)).map Prod.snd

/-- The texts that `std::ctime` produces, in the form the C standard fixes
for them ("Www Mmm dd hh:mm:ss yyyy" and a line break): 24 characters, none
of them a line break or a terminator, followed by one line break. -/
def ctime_shaped (tstr : String) : Bool :=
  tstr.data.length == 25 && tstr.data.drop 24 == [Char.ofNat 10] &&
    (tstr.data.take 24).all (fun c => c != Char.ofNat 10 && c != Char.ofNat 0)

/-- Whether the text `t` begins with the text `pre`. -/
def begins_with (pre t : String) : Bool := pre.data.isPrefixOf t.data

/-- The text without its last character. -/
def without_last (t : String) : String := String.mk t.data.dropLast

/-! ## Basic facts -/

theorem to_bool_iff (n : Nat) : to_bool n = true ↔ n ≠ 0 := by
  simp [to_bool]

theorem to_bool_eq_decide (n : Nat) : to_bool n = decide (n ≠ 0) := by
  by_cases h : n = 0 <;> simp [to_bool, h]

/-- The loop of `report` keeps the bindings whose mask meets the category, in
list order, and calls each of them once. -/
theorem report_loop_eq (r : basic_reporter) (c : log_type) (t : String)
    (l : List (log_type × Nat)) :
    r.report_loop c t l =
      (l.filter (fun b => decide (b.1 &&& c ≠ 0))).map
        (fun b => { obj := b.2, str := t, endl := to_bool (r.mOptions &&& linefeeds) }) := by
  induction l with
  | nil => rfl
  | cons b rest ih =>
    by_cases hb : b.1 &&& c = 0
    · have hc : c &&& b.1 = 0 := by rw [Nat.land_comm]; exact hb
      simp [basic_reporter.report_loop, to_bool, hb, hc, ih]
    · have hc : c &&& b.1 ≠ 0 := by rw [Nat.land_comm]; exact hb
      simp [basic_reporter.report_loop, to_bool, hb, hc, ih]

theorem format_all_append (a b : List Value) :
    format_all (a ++ b) = format_all a ++ format_all b := by
  induction a with
  | nil => simp [format_all]
  | cons v vs ih => simp [format_all, ih, String.append_assoc]

theorem space_bracket (x : String) : " [" ++ x = " " ++ ("[" ++ x) := by
  rw [← String.append_assoc]; rfl

theorem construct_fst (s : State) (tstr : String) (c : log_type) (o : option_type) :
    (basic_reporterstream.construct s tstr c o).1 =
      { mStream := s.bufs.length, mLog := c, mOptions := o } := rfl

theorem construct_snd (s : State) (tstr : String) (c : log_type) (o : option_type) :
    (basic_reporterstream.construct s tstr c o).2 =
      { s with bufs := s.bufs ++ [header s.reporter tstr o] } := by
  have e := space_bracket
  by_cases h1 : o &&& timestamp = 0 <;> by_cases h2 : o &&& modulename = 0 <;>
    simp [basic_reporterstream.construct, header, to_bool, h1, h2, basic_reporter.module,
      String.append_assoc, e]

/-- Opening a stream adds one buffer and changes nothing else. -/
theorem call_frame (s : State) (tstr : String) (c : log_type) (o : option_type) :
    (s.call tstr c o).2.reporter = s.reporter ∧ (s.call tstr c o).2.reports = s.reports ∧
      (s.call tstr c o).2.output = s.output ∧ (s.call tstr c o).1.mLog = c ∧
      (s.call tstr c o).1.mOptions = o := by
  simp [State.call, construct_fst, construct_snd]

theorem text_call (s : State) (tstr : String) (c : log_type) (o : option_type) :
    (s.call tstr c o).1.text (s.call tstr c o).2 = some (header s.reporter tstr o) := by
  simp [State.call, construct_fst, construct_snd, basic_reporterstream.text]

theorem text_shl (h : basic_reporterstream) (v : Value) (s : State) (x : String)
    (hx : h.text s = some x) : h.text (h.shl v s) = some (x ++ v.format) := by
  simp only [basic_reporterstream.text] at hx
  simp [basic_reporterstream.text, basic_reporterstream.shl, hx]

theorem text_shl_all (h : basic_reporterstream) (outs : List Value) (s : State) (x : String)
    (hx : h.text s = some x) : h.text (h.shl_all outs s) = some (x ++ format_all outs) := by
  induction outs generalizing s x with
  | nil => simpa [basic_reporterstream.shl_all, format_all] using hx
  | cons v vs ih =>
    have := ih (h.shl v s) (x ++ v.format) (text_shl h v s x hx)
    simpa [basic_reporterstream.shl_all, format_all, String.append_assoc] using this

/-- Insertions change the buffers only. -/
theorem shl_all_frame (h : basic_reporterstream) (outs : List Value) (s : State) :
    (h.shl_all outs s).reporter = s.reporter ∧ (h.shl_all outs s).reports = s.reports ∧
      (h.shl_all outs s).output = s.output := by
  induction outs generalizing s with
  | nil => simp [basic_reporterstream.shl_all]
  | cons v vs ih =>
    have := ih (h.shl v s)
    simpa [basic_reporterstream.shl_all, basic_reporterstream.shl] using this

/-- An insertion through a copy is an insertion into the same buffer. -/
theorem shl_either_copy (h : basic_reporterstream) (ops : List (Bool × Value)) (s : State) :
    shl_either h h.copy ops s = h.shl_all (ops.map Prod.snd) s := by
  induction ops generalizing s with
  | nil => rfl
  | cons p ps ih =>
    have hp : (if p.1 then h else h.copy).shl p.2 s = h.shl p.2 s := by
      cases p.1 <;> rfl
    simp only [shl_either, List.foldl_cons, List.map_cons, basic_reporterstream.shl_all] at ih ⊢
    rw [hp]
    exact ih _

/-- The destructor of a stream that has a buffer: one `report`. -/
theorem destroy_of_text (h : basic_reporterstream) (s : State) (x : String)
    (hx : h.text s = some x) :
    h.destroy s =
      { s with
        reports := s.reports ++ [(h.mLog, x, h.mOptions)]
        output := s.output ++ s.reporter.report h.mLog x h.mOptions } := by
  simp only [basic_reporterstream.text] at hx
  simp [basic_reporterstream.destroy, hx]

/-- The destructor leaves every buffer as it is. -/
theorem destroy_bufs (h : basic_reporterstream) (s : State) : (h.destroy s).bufs = s.bufs := by
  unfold basic_reporterstream.destroy
  split <;> rfl

theorem copy_eq (h : basic_reporterstream) : h.copy = h := rfl

/-- Insertions followed by the destructor: the reports and the output grow by
one `report` of the whole text, the buffer keeps that text. -/
theorem destroy_shl_all (h : basic_reporterstream) (outs : List Value) (s : State) (x : String)
    (hx : h.text s = some x) :
    (h.destroy (h.shl_all outs s)).reports =
        s.reports ++ [(h.mLog, x ++ format_all outs, h.mOptions)] ∧
      (h.destroy (h.shl_all outs s)).output =
        s.output ++ s.reporter.report h.mLog (x ++ format_all outs) h.mOptions ∧
      (h.destroy (h.shl_all outs s)).reporter = s.reporter ∧
      h.text (h.destroy (h.shl_all outs s)) = some (x ++ format_all outs) := by
  have h1 := text_shl_all h outs s x hx
  have hf := shl_all_frame h outs s
  have hb := destroy_bufs h (h.shl_all outs s)
  refine ⟨?_, ?_, ?_, ?_⟩
  · rw [destroy_of_text _ _ _ h1]; simp [hf.2.1]
  · rw [destroy_of_text _ _ _ h1]; simp [hf.1, hf.2.2]
  · rw [destroy_of_text _ _ _ h1]; simp [hf.1]
  · simp only [basic_reporterstream.text] at h1 ⊢
    rw [hb]; exact h1

/-- Calls of `bind` change neither the module name nor the options. -/
theorem bind_all_frame (r : basic_reporter) (binds : List (log_type × Nat)) :
    (bind_all r binds).mModuleName = r.mModuleName ∧ (bind_all r binds).mOptions = r.mOptions := by
  induction binds generalizing r with
  | nil => exact ⟨rfl, rfl⟩
  | cons b bs ih =>
    have := ih (r.bind b.2 b.1)
    simpa [bind_all, basic_reporter.bind] using this

/-! ## Dispatch -/

/-- C1: the `writeline` calls of `report c t o` are the bindings whose mask `m`
has `m & c != 0`, in the order of the binding list, one call for each such
binding, each with the text `t` unchanged. -/
theorem report_calls_are_matching_bindings (r : basic_reporter) (c : log_type) (t : String)
    (o : option_type) :
    (r.report c t o).map (fun w => (w.obj, w.str)) =
      (r.mOutput.filter (fun b => decide (b.1 &&& c ≠ 0))).map (fun b => (b.2, t)) := by
  simp [basic_reporter.report, report_loop_eq, List.map_map, Function.comp_def]

/-- C2: when `m1 & m2 == 0`, a line reported under `m1` makes no `writeline`
call on an output object whose bindings all carry the mask `m2`, and the
binding `(m2, k)` itself contributes no call wherever it stands in the list;
a stream opened under the mask 0, written to and destroyed performs its
`report` and makes no `writeline` call at all, whatever is bound. -/
theorem disjoint_masks_no_call (m1 m2 : log_type) (hm : m1 &&& m2 = 0) :
    (∀ (r : basic_reporter) (t : String) (o : option_type) (k : Nat),
        (∀ b ∈ r.mOutput, b.2 = k → b.1 = m2) → ∀ w ∈ r.report m1 t o, w.obj ≠ k) ∧
    (∀ (r : basic_reporter) (front back : List (log_type × Nat)) (t : String)
        (o : option_type) (k : Nat), r.mOutput = front ++ (m2, k) :: back →
        r.report m1 t o = r.report_loop m1 t (front ++ back)) ∧
    (∀ (s : State) (tstr : String) (o : option_type) (outs : List Value),
        let h := (s.call tstr 0 o).1
        let s1 := h.destroy (h.shl_all outs (s.call tstr 0 o).2)
        s1.output = s.output ∧
          s1.reports = s.reports ++ [(0, header s.reporter tstr o ++ format_all outs, o)]) := by
  have hm2 : m2 &&& m1 = 0 := by rw [Nat.land_comm]; exact hm
  refine ⟨?_, ?_, ?_⟩
  · intro r t o k hk w hw hwk
    simp only [basic_reporter.report, report_loop_eq, List.mem_map, List.mem_filter] at hw
    obtain ⟨b, ⟨hb, hbc⟩, rfl⟩ := hw
    have := hk b hb hwk
    rw [this] at hbc
    simp [hm2] at hbc
  · intro r front back t o k hr
    simp [basic_reporter.report, report_loop_eq, hr, List.filter_append, List.filter_cons, hm2]
  · intro s tstr o outs
    have h0 := text_call s tstr 0 o
    have h1 := text_shl_all _ outs _ _ h0
    have hf := shl_all_frame (s.call tstr 0 o).1 outs (s.call tstr 0 o).2
    simp only []
    have hc := call_frame s tstr 0 o
    rw [destroy_of_text _ _ _ h1]
    simp [hf.1, hf.2.1, hf.2.2, hc.1, hc.2.1, hc.2.2.1, hc.2.2.2.1, hc.2.2.2.2,
      basic_reporter.report, report_loop_eq]

/-- C2 at the masks `log` and `error`, with one object bound under `error`:
the mask condition holds and the binding contributes no call. -/
theorem disjoint_masks_no_call_witness :
    log &&& error = 0 ∧
      (basic_reporter.bind (basic_reporter.with_options 0) 7 error).report log "x" 0 =
        (basic_reporter.bind (basic_reporter.with_options 0) 7 error).report_loop log "x"
          ([] ++ []) :=
  ⟨by decide, (disjoint_masks_no_call log error (by decide)).2.1 _ [] [] "x" 0 7 rfl⟩

/-- C3: the flag passed to `writeline` does not follow the options of the
stream.  A reporter whose own options have `linefeeds`, with one object
bound under `log`: a stream opened with the explicit options 0 delivers its
line with the flag `true`.  A reporter whose own options are 0: `report`
called with the options `linefeeds` passes the flag `false`. -/
theorem newline_flag_not_from_stream_options :
    (let s0 := (State.init (basic_reporter.with_options linefeeds)).bind 7 log
     let p := s0.call "" log 0
     (p.1.destroy (p.1.shl (Value.str "x") p.2)).output =
       [{ obj := 7, str := "x", endl := true }]) ∧
    (basic_reporter.bind (basic_reporter.with_options 0) 7 log).report log "x" linefeeds =
      [{ obj := 7, str := "x", endl := false }] := by
  decide

/-! ## Copies of a stream -/

/-- C4: a stream is opened and written to, then copied; after insertions
through either of the two, one of them (`first` chooses which) is destroyed,
the other is written to and destroyed.  `report` is invoked exactly twice,
both times with the category and options of the stream: first with the whole
text of the shared buffer at the first destruction, then with that text
followed by everything inserted between the two destructions. -/
theorem copy_destroyed_twice_reports_twice (s : State) (tstr : String) (c : log_type)
    (o : option_type) (outs0 : List Value) (ops1 : List (Bool × Value)) (first : Bool)
    (outs2 : List Value) :
    (let h := (s.call tstr c o).1
    let k := h.copy
    let s2 := shl_either h k ops1 (h.shl_all outs0 (s.call tstr c o).2)
    let a := if first then h else k
    let b := if first then k else h
    let s3 := a.destroy s2
    let s4 := b.shl_all outs2 s3
    let s5 := b.destroy s4
    let t1 := header s.reporter tstr o ++ format_all outs0 ++ format_all (ops1.map Prod.snd)
    let t2 := t1 ++ format_all outs2
    a.text s2 = some t1 ∧ b.text s4 = some t2 ∧
      s3.reports = s.reports ++ [(c, t1, o)] ∧
      s5.reports = s.reports ++ [(c, t1, o), (c, t2, o)] ∧
      s5.output = s.output ++ s.reporter.report c t1 o ++ s.reporter.report c t2 o) := by
  intro h k s2 a b s3 s4 s5 t1 t2
  have hk : k = h := rfl
  have ha : a = h := by cases first <;> rfl
  have hb : b = h := by cases first <;> rfl
  have hc := call_frame s tstr c o
  have e0 := text_call s tstr c o
  have e1 := text_shl_all h outs0 _ _ e0
  have f1 := shl_all_frame h outs0 (s.call tstr c o).2
  have hs2 : s2 = h.shl_all (ops1.map Prod.snd) (h.shl_all outs0 (s.call tstr c o).2) :=
    shl_either_copy h ops1 _
  have e2 : h.text s2 = some t1 := by rw [hs2]; exact text_shl_all h _ _ _ e1
  have d3 := destroy_shl_all h (ops1.map Prod.snd) _ _ e1
  have hs3 : s3 = h.destroy (h.shl_all (ops1.map Prod.snd) (h.shl_all outs0 (s.call tstr c o).2)) := by
    show a.destroy s2 = _
    rw [ha, hs2]
  have d5 := destroy_shl_all h outs2 s3 t1 (by rw [hs3]; exact d3.2.2.2)
  have e4 : h.text s4 = some t2 := by
    show h.text (b.shl_all outs2 s3) = _
    rw [hb]; exact text_shl_all h outs2 s3 t1 (by rw [hs3]; exact d3.2.2.2)
  have r3 : s3.reports = s.reports ++ [(c, t1, o)] := by
    rw [hs3, d3.1, f1.2.1, hc.2.1, hc.2.2.2.1, hc.2.2.2.2]
  have o3 : s3.output = s.output ++ s.reporter.report c t1 o := by
    rw [hs3, d3.2.1, f1.2.2, f1.1, hc.1, hc.2.2.1, hc.2.2.2.1, hc.2.2.2.2]
  have p3 : s3.reporter = s.reporter := by rw [hs3, d3.2.2.1, f1.1, hc.1]
  refine ⟨by rw [ha]; exact e2, by rw [hb]; exact e4, r3, ?_, ?_⟩
  · show (b.destroy (b.shl_all outs2 s3)).reports = _
    rw [hb, d5.1, r3, hc.2.2.2.1, hc.2.2.2.2]
    simp
  · show (b.destroy (b.shl_all outs2 s3)).output = _
    rw [hb, d5.2.1, o3, p3, hc.2.2.2.1, hc.2.2.2.2]

/-- C5: one object is bound under `log`; a stream opened under `log` receives
"x" and is copied; the copy is destroyed while the original is still alive,
then the original receives "y" and is destroyed.  `report` is invoked and
the line is written at the first destruction already, and twice in all. -/
theorem copy_destroyed_early_reports :
    (let p := ((State.init (basic_reporter.with_options 0)).bind 7 log).call "" log 0
    let h := p.1
    let k := h.copy
    let s3 := k.destroy (h.shl (Value.str "x") p.2)
    let s5 := h.destroy (h.shl (Value.str "y") s3)
    s3.reports = [(log, "x", 0)] ∧
      s3.output = [{ obj := 7, str := "x", endl := false }] ∧
      s5.reports = [(log, "x", 0), (log, "xy", 0)] ∧
      s5.output = [{ obj := 7, str := "x", endl := false }, { obj := 7, str := "xy", endl := false }]) := by
  decide

/-! ## Opening, writing, destroying -/

/-- C6: a stream that is opened, receives `v1 ... vn` in a chain and is
destroyed without having been copied makes a single `report`, whose text is
the text left by the constructor followed by `format v1 ++ ... ++ format vn`;
the values "a", 1, "b" give "a1b". -/
theorem chained_inserts_one_report (s : State) (tstr : String) (c : log_type)
    (o : option_type) (outs : List Value) :
    (let h := (s.call tstr c o).1
    let s1 := (s.call tstr c o).2
    let s2 := h.destroy (h.shl_all outs s1)
    h.text s1 = some (header s.reporter tstr o) ∧
      s2.reports = s.reports ++ [(c, header s.reporter tstr o ++ format_all outs, o)] ∧
      s2.output = s.output ++ s.reporter.report c (header s.reporter tstr o ++ format_all outs) o ∧
      format_all [Value.str "a", Value.int 1, Value.str "b"] = "a1b") := by
  intro h s1 s2
  have hc := call_frame s tstr c o
  have e0 := text_call s tstr c o
  have d := destroy_shl_all h outs s1 _ e0
  refine ⟨e0, ?_, ?_, by decide⟩
  · show (h.destroy (h.shl_all outs s1)).reports = _
    rw [d.1, hc.2.1, hc.2.2.2.1, hc.2.2.2.2]
  · show (h.destroy (h.shl_all outs s1)).output = _
    rw [d.2.1, hc.1, hc.2.2.1, hc.2.2.2.1, hc.2.2.2.2]

/-- C7: right after `operator()(c, o)` the buffer holds the time text and a
space if `o` has `timestamp`, then "[n] " if `o` has `modulename`, and
nothing else, where `n` is the module name and the time text is the `ctime`
text cut at position 24; with both bits set the reported text is the time
text, a space, "[n] " and the inserted text, in this order. -/
theorem open_writes_stamp_then_module (s : State) (tstr : String) (c : log_type)
    (o : option_type) (outs : List Value) :
    (let h := (s.call tstr c o).1
    let s1 := (s.call tstr c o).2
    let n := s.reporter.module
    let T := cut_ctime tstr
    h.text s1 = some ((if o &&& timestamp ≠ 0 then T ++ " " else "") ++
        (if o &&& modulename ≠ 0 then "[" ++ n ++ "] " else "")) ∧
      (o &&& timestamp ≠ 0 → o &&& modulename ≠ 0 →
        (h.destroy (h.shl_all outs s1)).reports =
          s.reports ++ [(c, T ++ " " ++ "[" ++ n ++ "] " ++ format_all outs, o)]) ∧
      cut_ctime "Wed Jun 30 21:49:08 1993\n" = "Wed Jun 30 21:49:08 1993") := by
  intro h s1 n T
  have hc := call_frame s tstr c o
  have e0 := text_call s tstr c o
  refine ⟨e0, ?_, by decide⟩
  intro h1 h2
  have d := destroy_shl_all h outs s1 _ e0
  rw [d.1, hc.2.1, hc.2.2.2.1, hc.2.2.2.2]
  simp [header, h1, h2, T, n, basic_reporter.module, String.append_assoc, space_bracket]

/-! ## The module name option -/

/-- C8, as stated, fails: a reporter constructed from `option_all` alone keeps
the `modulename` bit, and one constructed from `modulename` alone (time bit
clear) opens its default stream with the text "[] ", not the empty text. -/
theorem no_name_reporter_keeps_modulename_bit :
    (basic_reporter.with_options option_all).mOptions &&& modulename ≠ 0 ∧
    (let p := (State.init (basic_reporter.with_options modulename)).call_default "" log
     p.1.text p.2 = some "[] ") := by
  decide

/-- C8 amended: a reporter constructed without a module name stores exactly
the options it was given, whatever is bound afterwards; a stream opened with
these default options gets the module part "[] " if they have `modulename`
and no module part if not, so with `timestamp` and `modulename` both clear
the buffer is empty right after the opening. -/
theorem no_name_reporter_default_stream (s0 : State) (opts : option_type)
    (binds : List (log_type × Nat)) (tstr : String) (c : log_type) :
    (let r := bind_all (basic_reporter.with_options opts) binds
    let s : State := { s0 with reporter := r }
    let p := s.call_default tstr c
    r.mOptions = opts ∧ r.module = "" ∧
      p.1.text p.2 = some ((if opts &&& timestamp ≠ 0 then cut_ctime tstr ++ " " else "") ++
        (if opts &&& modulename ≠ 0 then "[] " else "")) ∧
      (opts &&& timestamp = 0 → opts &&& modulename = 0 → p.1.text p.2 = some "")) := by
  intro r s p
  have hf := bind_all_frame (basic_reporter.with_options opts) binds
  have ho : r.mOptions = opts := hf.2
  have hn : r.mModuleName = "" := hf.1
  have e0 : p.1.text p.2 = some (header r tstr opts) := by
    show (s.call tstr c s.reporter.mOptions).1.text (s.call tstr c s.reporter.mOptions).2 = _
    have : s.reporter.mOptions = opts := ho
    rw [this]
    exact text_call s tstr c opts
  have e1 : header r tstr opts =
      (if opts &&& timestamp ≠ 0 then cut_ctime tstr ++ " " else "") ++
        (if opts &&& modulename ≠ 0 then "[] " else "") := by
    simp only [header, hn]
    rfl
  refine ⟨ho, hn, by rw [e0, e1], ?_⟩
  intro h1 h2
  rw [e0, e1]
  simp [h1, h2]

/-- C9, as stated, fails: on a reporter without a module name, a stream opened
with the explicit options `modulename` starts with the text "[] ". -/
theorem no_name_explicit_modulename_writes_brackets :
    (let p := (State.init (basic_reporter.with_options 0)).call "" log modulename
     p.1.text p.2 = some "[] ") ∧
    (let p := (State.init (basic_reporter.with_options 0)).call
        "Wed Jun 30 21:49:08 1993\n" log (timestamp ||| modulename)
     p.1.text p.2 = some "Wed Jun 30 21:49:08 1993 [] ") := by
  decide

/-- C9 amended: `operator()(c, o)` writes the module part whenever `o` has
`modulename`, with or without a module name: on a reporter constructed
without one, the buffer right after the opening is the time part followed by
"[] ", and exactly "[] " when `timestamp` is clear. -/
theorem module_part_follows_option_bit (s0 : State) (opts : option_type)
    (binds : List (log_type × Nat)) (tstr : String) (c : log_type) (o : option_type)
    (ho : o &&& modulename ≠ 0) :
    (let s : State := { s0 with reporter := bind_all (basic_reporter.with_options opts) binds }
    let p := s.call tstr c o
    p.1.text p.2 = some ((if o &&& timestamp ≠ 0 then cut_ctime tstr ++ " " else "") ++ "[] ") ∧
      (o &&& timestamp = 0 → p.1.text p.2 = some "[] ")) := by
  intro s p
  have hf := bind_all_frame (basic_reporter.with_options opts) binds
  have hn : (bind_all (basic_reporter.with_options opts) binds).mModuleName = "" := hf.1
  have e0 : p.1.text p.2 = some (header s.reporter tstr o) := text_call s tstr c o
  have e1 : header s.reporter tstr o =
      (if o &&& timestamp ≠ 0 then cut_ctime tstr ++ " " else "") ++ "[] " := by
    show header (bind_all (basic_reporter.with_options opts) binds) tstr o = _
    rw [header, hn, if_pos ho]
    rfl
  refine ⟨by rw [e0, e1], ?_⟩
  intro h1
  rw [e0, e1]
  simp [h1]

/-- C9 amended, at a reporter built from the options 0 with one object bound
and the explicit options `linefeeds | modulename`. -/
theorem module_part_follows_option_bit_witness :
    (linefeeds ||| modulename) &&& modulename ≠ 0 ∧
    (let s : State :=
        { State.init (basic_reporter.with_options 5) with
          reporter := bind_all (basic_reporter.with_options 0) [(log, 7)] }
     let p := s.call "" log (linefeeds ||| modulename)
     p.1.text p.2 = some ((if (linefeeds ||| modulename) &&& timestamp ≠ 0
        then cut_ctime "" ++ " " else "") ++ "[] ") ∧
      ((linefeeds ||| modulename) &&& timestamp = 0 → p.1.text p.2 = some "[] ")) :=
  ⟨by decide,
    module_part_follows_option_bit (State.init (basic_reporter.with_options 5)) 0 [(log, 7)] ""
      log (linefeeds ||| modulename) (by decide)⟩

/-! ## End to end -/

/-- C10: on the reporter constructed from the name `n` and the options
`timestamp | linefeeds`, with `sinkA` bound under `log` and `sinkB` under
`error | fatal`, a default stream opened under `log` that receives `text` and
is destroyed makes exactly one `writeline` call, on `sinkA`, with the time
text, " [n] " and `text`, and the flag `true`; opened under `error` the one
call is on `sinkB`. -/
theorem end_to_end_named_reporter (s0 : State) (n text tstr : String) (sinkA sinkB : Nat) :
    (let r := ((basic_reporter.with_module n (timestamp ||| linefeeds)).bind sinkA log).bind sinkB
      (error ||| fatal)
    let s : State := { s0 with reporter := r }
    let line := cut_ctime tstr ++ " [" ++ n ++ "] " ++ text
    let pl := s.call_default tstr log
    let pe := s.call_default tstr error
    (pl.1.destroy (pl.1.shl (Value.str text) pl.2)).output =
        s0.output ++ [{ obj := sinkA, str := line, endl := true }] ∧
      (pe.1.destroy (pe.1.shl (Value.str text) pe.2)).output =
        s0.output ++ [{ obj := sinkB, str := line, endl := true }]) := by
  intro r s line pl pe
  have ho : s.reporter.mOptions = 7 := by
    show (timestamp ||| linefeeds) ||| modulename = 7
    decide
  have hh : header s.reporter tstr 7 ++ format_all [Value.str text] = line := by
    have h1 : (7 : Nat) &&& timestamp ≠ 0 := by decide
    have h2 : (7 : Nat) &&& modulename ≠ 0 := by decide
    show header r tstr 7 ++ (text ++ "") = cut_ctime tstr ++ " [" ++ n ++ "] " ++ text
    rw [header, if_pos h1, if_pos h2]
    show _ ++ ("[" ++ n ++ "] ") ++ _ = _
    simp only [String.append_assoc, String.append_empty, space_bracket]
  have key : ∀ c : log_type,
      ((s.call_default tstr c).1.destroy
          ((s.call_default tstr c).1.shl (Value.str text) (s.call_default tstr c).2)).output =
        s0.output ++ s.reporter.report c line 7 := by
    intro c
    have hc := call_frame s tstr c 7
    have d := destroy_shl_all (s.call tstr c 7).1 [Value.str text] (s.call tstr c 7).2 _
      (text_call s tstr c 7)
    have e : s.call_default tstr c = s.call tstr c 7 := by
      show s.call tstr c s.reporter.mOptions = _
      rw [ho]
    rw [e]
    have d2 := d.2.1
    rw [hh, hc.1, hc.2.2.1, hc.2.2.2.1, hc.2.2.2.2] at d2
    exact d2
  have a1 : to_bool log = true := by decide
  have a2 : to_bool (log &&& (error ||| fatal)) = false := by decide
  have a3 : to_bool (error &&& log) = false := by decide
  have a4 : to_bool (error &&& (error ||| fatal)) = true := by decide
  have a5 : to_bool (r.mOptions &&& linefeeds) = true := by
    have : r.mOptions = 7 := ho
    rw [this]
    decide
  refine ⟨?_, ?_⟩
  · rw [key log]
    show s0.output ++ r.report_loop log line [(log, sinkA), (error ||| fatal, sinkB)] = _
    simp [basic_reporter.report_loop, a1, a2, a5]
  · rw [key error]
    show s0.output ++ r.report_loop error line [(log, sinkA), (error ||| fatal, sinkB)] = _
    simp [basic_reporter.report_loop, a3, a4, a5]

/-! ## The convenience overload and the bindings -/

/-- C11: `operator()(c)` gives what `operator()(c, mOptions)` gives with the
stored options of the reporter and the same `ctime` text: the same stream
(category `c`, options `mOptions`), the same state, and so the same text in
the new buffer. -/
theorem call_default_is_call_with_stored_options (s : State) (tstr : String) (c : log_type) :
    s.call_default tstr c = s.call tstr c s.reporter.mOptions ∧
      (s.call_default tstr c).1.mLog = c ∧
      (s.call_default tstr c).1.mOptions = s.reporter.mOptions ∧
      (s.call_default tstr c).1.mLog = (s.call tstr c s.reporter.mOptions).1.mLog ∧
      (s.call_default tstr c).1.mOptions = (s.call tstr c s.reporter.mOptions).1.mOptions ∧
      (s.call_default tstr c).1.text (s.call_default tstr c).2 =
        (s.call tstr c s.reporter.mOptions).1.text (s.call tstr c s.reporter.mOptions).2 ∧
      (s.call_default tstr c).1.text (s.call_default tstr c).2 =
        some (header s.reporter tstr s.reporter.mOptions) := by
  have hc := call_frame s tstr c s.reporter.mOptions
  exact ⟨rfl, hc.2.2.2.1, hc.2.2.2.2, rfl, rfl, rfl, text_call s tstr c s.reporter.mOptions⟩

/-- C12: when the object `k` is bound twice, under `m1` and then under `m2`,
a line whose category meets both masks makes two `writeline` calls on `k`,
one for each binding, and a line whose category meets only one of the masks
makes exactly one. -/
theorem double_binding_two_calls (r : basic_reporter) (k : Nat) (m1 m2 c : log_type)
    (t : String) (o : option_type) :
    (let r2 := (r.bind k m1).bind k m2
     let w : writeline_call := { obj := k, str := t, endl := to_bool (r.mOptions &&& linefeeds) }
     (m1 &&& c ≠ 0 → m2 &&& c ≠ 0 → r2.report c t o = r.report c t o ++ [w, w]) ∧
     (m1 &&& c ≠ 0 → m2 &&& c = 0 → r2.report c t o = r.report c t o ++ [w]) ∧
     (m1 &&& c = 0 → m2 &&& c ≠ 0 → r2.report c t o = r.report c t o ++ [w])) := by
  intro r2 w
  have e : r2.report c t o =
      r.report c t o ++ (if m1 &&& c ≠ 0 then [w] else []) ++ (if m2 &&& c ≠ 0 then [w] else []) := by
    simp only [r2, w, basic_reporter.report, basic_reporter.bind, report_loop_eq,
      List.filter_append, List.map_append, List.append_assoc]
    by_cases h1 : m1 &&& c = 0 <;> by_cases h2 : m2 &&& c = 0 <;>
      simp [List.filter_cons, h1, h2]
  refine ⟨?_, ?_, ?_⟩
  · intro h1 h2; rw [e]; simp [h1, h2]
  · intro h1 h2; rw [e]; simp [h1, h2]
  · intro h1 h2; rw [e]; simp [h1, h2]

/-- C13: an object bound with the default mask `log_all` receives every line
whose category is a non-zero `unsigned long` value: `report` makes one more
`writeline` call, on that object, after the calls of the earlier bindings.
The categories `debug`, `error`, `warning`, `fatal`, `log` and `screen` are
such values. -/
theorem default_mask_receives_all (r : basic_reporter) (k : Nat) (c : log_type) (t : String)
    (o : option_type) (hc0 : c ≠ 0) (hc : c ≤ ulong_max) :
    (r.bind k).report c t o =
        r.report c t o ++ [{ obj := k, str := t, endl := to_bool (r.mOptions &&& linefeeds) }] ∧
      (∀ w ∈ [debug, error, warning, fatal, log, screen], w ≠ 0 ∧ w ≤ ulong_max) ∧
      (∀ i, i < 64 → Nat.testBit log_all i = true) := by
  have hlt : c < 2 ^ 64 := Nat.lt_of_le_of_lt hc (by decide)
  have hand : log_all &&& c = c := by
    show (2 ^ 64 - 1) &&& c = c
    rw [Nat.land_comm, Nat.and_pow_two_sub_one_eq_mod, Nat.mod_eq_of_lt hlt]
  refine ⟨?_, by decide, ?_⟩
  · simp only [basic_reporter.report, basic_reporter.bind, report_loop_eq, List.filter_append,
      List.map_append]
    simp [List.filter_cons, hand, hc0]
  · intro i hi
    show Nat.testBit (2 ^ 64 - 1) i = true
    rw [Nat.testBit_two_pow_sub_one]
    exact decide_eq_true hi

/-- C13 at the category `error | fatal` on a reporter with one earlier binding. -/
theorem default_mask_receives_all_witness :
    (error ||| fatal ≠ 0 ∧ error ||| fatal ≤ ulong_max) ∧
      (((basic_reporter.with_options 0).bind 3 log).bind 7).report (error ||| fatal) "x" 0 =
        ((basic_reporter.with_options 0).bind 3 log).report (error ||| fatal) "x" 0 ++
          [{ obj := 7, str := "x", endl := to_bool (0 &&& linefeeds) }] :=
  ⟨by decide,
    (default_mask_receives_all ((basic_reporter.with_options 0).bind 3 log) 7 (error ||| fatal)
      "x" 0 (by decide) (by decide)).1⟩

/-! ## Aliased and separate buffers -/

theorem text_shl_ne (h k : basic_reporterstream) (v : Value) (s : State)
    (hne : h.mStream ≠ k.mStream) : k.text (h.shl v s) = k.text s := by
  simp [basic_reporterstream.text, basic_reporterstream.shl, List.getElem?_modify_ne _ _ hne]

theorem text_destroy (h k : basic_reporterstream) (s : State) :
    k.text (h.destroy s) = k.text s := by
  simp only [basic_reporterstream.text, destroy_bufs]

theorem destroy_reporter (h : basic_reporterstream) (s : State) :
    (h.destroy s).reporter = s.reporter := by
  unfold basic_reporterstream.destroy
  split <;> rfl

/-- A stream that has a buffer keeps its text when another stream is opened,
and the new stream refers to another buffer. -/
theorem text_call_old (k : basic_reporterstream) (s : State) (x : String) (tstr : String)
    (c : log_type) (o : option_type) (hx : k.text s = some x) :
    k.text (s.call tstr c o).2 = some x ∧ k.mStream ≠ (s.call tstr c o).1.mStream := by
  simp only [basic_reporterstream.text] at hx
  obtain ⟨hlt, _⟩ := List.getElem?_eq_some.mp hx
  refine ⟨?_, ?_⟩
  · simp only [basic_reporterstream.text, State.call, construct_snd]
    rw [List.getElem?_append_left hlt]
    exact hx
  · simp only [State.call, construct_fst]
    exact Nat.ne_of_lt hlt

theorem shl_all_length (h : basic_reporterstream) (outs : List Value) (s : State) :
    (h.shl_all outs s).bufs.length = s.bufs.length := by
  induction outs generalizing s with
  | nil => rfl
  | cons v vs ih =>
    have := ih (h.shl v s)
    simpa [basic_reporterstream.shl_all, basic_reporterstream.shl] using this

theorem shl_either_frame (h k : basic_reporterstream) (ops : List (Bool × Value)) (s : State) :
    (shl_either h k ops s).reporter = s.reporter ∧ (shl_either h k ops s).reports = s.reports ∧
      (shl_either h k ops s).output = s.output ∧
      (shl_either h k ops s).bufs.length = s.bufs.length := by
  induction ops generalizing s with
  | nil => simp [shl_either]
  | cons p ps ih =>
    have := ih ((if p.1 then h else k).shl p.2 s)
    simpa [shl_either, basic_reporterstream.shl] using this

/-- Insertions through two streams with different buffers: each buffer
receives the values inserted through its own stream, in order. -/
theorem text_shl_either (h k : basic_reporterstream) (hne : h.mStream ≠ k.mStream)
    (ops : List (Bool × Value)) (s : State) (x y : String)
    (hx : h.text s = some x) (hy : k.text s = some y) :
    h.text (shl_either h k ops s) = some (x ++ format_all (chosen true ops)) ∧
      k.text (shl_either h k ops s) = some (y ++ format_all (chosen false ops)) := by
  induction ops generalizing s x y with
  | nil => simpa [shl_either, chosen, format_all] using And.intro hx hy
  | cons p ps ih =>
    obtain ⟨b, v⟩ := p
    cases b with
    | true =>
      have h1 := text_shl h v s x hx
      have h2 : k.text (h.shl v s) = some y := by rw [text_shl_ne h k v s hne]; exact hy
      have := ih (h.shl v s) (x ++ v.format) y h1 h2
      simpa [shl_either, chosen, format_all, String.append_assoc] using this
    | false =>
      have h1 := text_shl k v s y hy
      have h2 : h.text (k.shl v s) = some x := by rw [text_shl_ne k h v s hne.symm]; exact hx
      have := ih (k.shl v s) x (y ++ v.format) h2 h1
      simpa [shl_either, chosen, format_all, String.append_assoc] using this

/-- C14: a copy has the category, the options and the buffer of its source,
and no buffer is allocated for it: after insertions through either of the
two, both see the whole text, and the destructor of either one (`which`
chooses) reports that whole text, with what was inserted through the other. -/
theorem copy_aliases_buffer (s : State) (tstr : String) (c : log_type) (o : option_type)
    (outs0 : List Value) (ops : List (Bool × Value)) (which : Bool) :
    (let h := (s.call tstr c o).1
     let k := h.copy
     let s2 := shl_either h k ops (h.shl_all outs0 (s.call tstr c o).2)
     let t := header s.reporter tstr o ++ format_all outs0 ++ format_all (ops.map Prod.snd)
     let a := if which then h else k
     k.mLog = h.mLog ∧ k.mOptions = h.mOptions ∧ k.mStream = h.mStream ∧
       s2.bufs.length = s.bufs.length + 1 ∧
       h.text s2 = some t ∧ k.text s2 = some t ∧
       (a.destroy s2).reports = s.reports ++ [(c, t, o)]) := by
  intro h k s2 t a
  have ha : a = h := by cases which <;> rfl
  have hc := call_frame s tstr c o
  have e0 := text_call s tstr c o
  have e1 := text_shl_all h outs0 _ _ e0
  have f1 := shl_all_frame h outs0 (s.call tstr c o).2
  have hs2 : s2 = h.shl_all (ops.map Prod.snd) (h.shl_all outs0 (s.call tstr c o).2) :=
    shl_either_copy h ops _
  have e2 : h.text s2 = some t := by rw [hs2]; exact text_shl_all h _ _ _ e1
  have hlen : s2.bufs.length = s.bufs.length + 1 := by
    have l1 := (shl_either_frame h k ops (h.shl_all outs0 (s.call tstr c o).2)).2.2.2
    have l2 := shl_all_length h outs0 (s.call tstr c o).2
    show (shl_either h k ops _).bufs.length = _
    rw [l1, l2]
    simp [State.call, construct_snd]
  refine ⟨rfl, rfl, rfl, hlen, e2, e2, ?_⟩
  rw [ha, destroy_of_text h s2 t e2]
  have r2 : s2.reports = s.reports := by rw [hs2, (shl_all_frame h _ _).2.1, f1.2.1, hc.2.1]
  show s2.reports ++ [(h.mLog, t, h.mOptions)] = _
  rw [r2, hc.2.2.2.1, hc.2.2.2.2]

/-- C15: two streams from separate `operator()` calls have separate buffers.
The first is opened and written to, the second is opened, and values are
inserted through the two in any interleaving: an insertion through one
leaves the text of the other as it is, each buffer holds the text left by
its own constructor followed by its own values in order, and whichever is
destroyed first, each destructor reports exactly the text of its own buffer.
In the run of `test.cpp` the stream held across the `error` line reports
"before after" and the line in between reports "during". -/
theorem separate_streams_independent (s : State) (t1 t2 : String) (c1 c2 : log_type)
    (o1 o2 : option_type) (outs0 : List Value) (ops : List (Bool × Value))
    (outs : List Value) :
    (let h1 := (s.call t1 c1 o1).1
     let sa := h1.shl_all outs0 (s.call t1 c1 o1).2
     let h2 := (sa.call t2 c2 o2).1
     let sb := (sa.call t2 c2 o2).2
     let sc := shl_either h1 h2 ops sb
     let x1 := header s.reporter t1 o1 ++ format_all outs0 ++ format_all (chosen true ops)
     let x2 := header s.reporter t2 o2 ++ format_all (chosen false ops)
     h1.mStream ≠ h2.mStream ∧
       (∀ (v : Value) (st : State),
          h2.text (h1.shl v st) = h2.text st ∧ h1.text (h2.shl v st) = h1.text st) ∧
       h1.text sc = some x1 ∧ h2.text sc = some x2 ∧
       (h1.destroy (h1.shl_all outs (h2.destroy sc))).reports =
         s.reports ++ [(c2, x2, o2), (c1, x1 ++ format_all outs, o1)] ∧
       (h2.destroy (h2.shl_all outs (h1.destroy sc))).reports =
         s.reports ++ [(c1, x1, o1), (c2, x2 ++ format_all outs, o2)]) ∧
    (let so := ((((State.init (basic_reporter.with_module "test app" (timestamp ||| linefeeds))).bind
        0 log).bind 1 (error ||| fatal)).bind 2 (error ||| fatal)).bind 3 (error ||| fatal)
     let now := "Wed Jun 30 21:49:08 1993\n"
     let tmp := (so.call_default now log).1
     let sa := tmp.shl (Value.str "before ") (so.call_default now log).2
     let during := (sa.call_default now error).1
     let sb := during.destroy (during.shl (Value.str "during") (sa.call_default now error).2)
     let sc := tmp.destroy (tmp.shl (Value.str "after") sb)
     sc.reports =
       [(error, "Wed Jun 30 21:49:08 1993 [test app] during", 7),
        (log, "Wed Jun 30 21:49:08 1993 [test app] before after", 7)] ∧
     sc.output =
       [{ obj := 1, str := "Wed Jun 30 21:49:08 1993 [test app] during", endl := true },
        { obj := 2, str := "Wed Jun 30 21:49:08 1993 [test app] during", endl := true },
        { obj := 3, str := "Wed Jun 30 21:49:08 1993 [test app] during", endl := true },
        { obj := 0, str := "Wed Jun 30 21:49:08 1993 [test app] before after", endl := true }]) := by
  refine ⟨?_, by decide⟩
  intro h1 sa h2 sb sc x1 x2
  have c1f := call_frame s t1 c1 o1
  have e0 := text_call s t1 c1 o1
  have e1 : h1.text sa = some (header s.reporter t1 o1 ++ format_all outs0) :=
    text_shl_all h1 outs0 _ _ e0
  have f1 := shl_all_frame h1 outs0 (s.call t1 c1 o1).2
  have sar : sa.reporter = s.reporter := by rw [f1.1, c1f.1]
  have sap : sa.reports = s.reports := by rw [f1.2.1, c1f.2.1]
  have c2f := call_frame sa t2 c2 o2
  have old := text_call_old h1 sa _ t2 c2 o2 e1
  have hne : h1.mStream ≠ h2.mStream := old.2
  have e2 : h2.text sb = some (header s.reporter t2 o2) := by
    have := text_call sa t2 c2 o2
    rw [sar] at this
    exact this
  have tx := text_shl_either h1 h2 hne ops sb _ _ old.1 e2
  have fe := shl_either_frame h1 h2 ops sb
  have scr : sc.reports = s.reports := by rw [fe.2.1, c2f.2.1, sap]
  have l1 : h1.mLog = c1 ∧ h1.mOptions = o1 := ⟨c1f.2.2.2.1, c1f.2.2.2.2⟩
  have l2 : h2.mLog = c2 ∧ h2.mOptions = o2 := ⟨c2f.2.2.2.1, c2f.2.2.2.2⟩
  refine ⟨hne, ?_, tx.1, tx.2, ?_, ?_⟩
  · intro v st
    exact ⟨text_shl_ne h1 h2 v st hne, text_shl_ne h2 h1 v st hne.symm⟩
  · have d2 : (h2.destroy sc).reports = s.reports ++ [(c2, x2, o2)] := by
      rw [destroy_of_text h2 sc x2 tx.2]
      show sc.reports ++ [(h2.mLog, x2, h2.mOptions)] = _
      rw [scr, l2.1, l2.2]
    have t1d : h1.text (h2.destroy sc) = some x1 := by rw [text_destroy]; exact tx.1
    have d1 := destroy_shl_all h1 outs (h2.destroy sc) x1 t1d
    rw [d1.1, d2, l1.1, l1.2]
    simp
  · have d1 : (h1.destroy sc).reports = s.reports ++ [(c1, x1, o1)] := by
      rw [destroy_of_text h1 sc x1 tx.1]
      show sc.reports ++ [(h1.mLog, x1, h1.mOptions)] = _
      rw [scr, l1.1, l1.2]
    have t2d : h2.text (h1.destroy sc) = some x2 := by rw [text_destroy]; exact tx.2
    have d2 := destroy_shl_all h2 outs (h1.destroy sc) x2 t2d
    rw [d2.1, d1, l2.1, l2.2]
    simp

/-! ## The time text -/

/-- A text of the standard form is cut exactly before its line break. -/
theorem cut_ctime_shaped (tstr : String) (hs : ctime_shaped tstr = true) :
    cut_ctime tstr = without_last tstr ∧ tstr = without_last tstr ++ String.mk [Char.ofNat 10] ∧
      Char.ofNat 10 ∉ (without_last tstr).data := by
  simp only [ctime_shaped, Bool.and_eq_true, beq_iff_eq, List.all_eq_true, bne_iff_ne] at hs
  obtain ⟨⟨_, hd⟩, ha⟩ := hs
  have hsplit : tstr.data = tstr.data.take 24 ++ [Char.ofNat 10] := by
    rw [← hd, List.take_append_drop]
  have hlast : tstr.data.dropLast = tstr.data.take 24 := by
    rw [hsplit, List.dropLast_concat, ← hsplit]
  have hw : List.takeWhile (fun c => c != Char.ofNat 0) (tstr.data.take 24) = tstr.data.take 24 := by
    rw [List.takeWhile_eq_self_iff]
    intro x hx
    simpa using (ha x hx).2
  refine ⟨?_, ?_, ?_⟩
  · simp only [cut_ctime, without_last, hw, hlast]
  · apply String.ext
    simp only [without_last, String.data_append, hlast]
    exact hsplit
  · simp only [without_last, hlast]
    intro hmem
    exact (ha _ hmem).1 rfl

/-- C16: when `timestamp` is set and `tstr` is a text of `std::ctime` (24
characters, then the line break), the buffer right after the opening is
that text without its final line break, then one space, then the module
part: it begins with the text less its line break and a single space.  The
time part holds no line break, and neither does the whole buffer unless the
module name brings one. -/
theorem stamp_is_ctime_without_newline (s : State) (tstr : String) (c : log_type)
    (o : option_type) (hs : ctime_shaped tstr = true) (ho : o &&& timestamp ≠ 0) :
    (let p := s.call tstr c o
     let body := without_last tstr
     tstr = body ++ String.mk [Char.ofNat 10] ∧
       p.1.text p.2 = some (body ++ " " ++
         (if o &&& modulename ≠ 0 then "[" ++ s.reporter.module ++ "] " else "")) ∧
       (∀ t : String, p.1.text p.2 = some t → begins_with (body ++ " ") t = true) ∧
       Char.ofNat 10 ∉ (body ++ " ").data ∧
       (o &&& modulename = 0 ∨ Char.ofNat 10 ∉ s.reporter.module.data →
         ∀ t : String, p.1.text p.2 = some t → Char.ofNat 10 ∉ t.data)) := by
  intro p body
  have hcut := cut_ctime_shaped tstr hs
  have htext : p.1.text p.2 = some (body ++ " " ++
      (if o &&& modulename ≠ 0 then "[" ++ s.reporter.module ++ "] " else "")) := by
    have e0 := text_call s tstr c o
    rw [e0, header, if_pos ho, hcut.1]
    rfl
  have hpart : Char.ofNat 10 ∉ (body ++ " ").data := by
    intro hmem
    rw [String.data_append, List.mem_append] at hmem
    rcases hmem with hmem | hmem
    · exact hcut.2.2 hmem
    · revert hmem
      decide
  refine ⟨hcut.2.1, htext, ?_, hpart, ?_⟩
  · intro t ht
    rw [htext] at ht
    cases ht
    simp [begins_with]
  · intro hm t ht
    rw [htext] at ht
    cases ht
    intro hmem
    rw [String.data_append, List.mem_append] at hmem
    rcases hmem with hmem | hmem
    · exact hpart hmem
    · by_cases h0 : o &&& modulename = 0
      · rw [if_neg (not_not.mpr h0)] at hmem
        revert hmem
        decide
      · rw [if_pos h0] at hmem
        have hn : Char.ofNat 10 ∉ s.reporter.module.data := hm.resolve_left h0
        simp only [String.data_append, List.mem_append] at hmem
        rcases hmem with (hmem | hmem) | hmem
        · revert hmem
          decide
        · exact hn hmem
        · revert hmem
          decide

/-- C16 at a `ctime` text, on a reporter without bindings. -/
theorem stamp_is_ctime_without_newline_witness :
    (ctime_shaped "Wed Jun 30 21:49:08 1993\n" = true ∧ timestamp &&& timestamp ≠ 0) ∧
    (let p := (State.init (basic_reporter.with_options 0)).call "Wed Jun 30 21:49:08 1993\n"
        log timestamp
     p.1.text p.2 = some (without_last "Wed Jun 30 21:49:08 1993\n" ++ " " ++
       (if timestamp &&& modulename ≠ 0
        then "[" ++ (State.init (basic_reporter.with_options 0)).reporter.module ++ "] "
        else "")) ∧
     p.1.text p.2 = some "Wed Jun 30 21:49:08 1993 ") :=
  ⟨by decide,
    (stamp_is_ctime_without_newline (State.init (basic_reporter.with_options 0))
      "Wed Jun 30 21:49:08 1993\n" log timestamp (by decide) (by decide)).2.1,
    by decide⟩

/-! ## The stored options -/

/-- The named constructor adds the bit `modulename` and leaves the other two
option bits as they were given. -/
theorem or_modulename_bits (opts : option_type) :
    (opts ||| modulename) &&& linefeeds = opts &&& linefeeds ∧
      (opts ||| modulename) &&& timestamp = opts &&& timestamp ∧
      (opts ||| modulename) &&& modulename ≠ 0 := by
  have e1 : linefeeds &&& modulename = 0 := by decide
  have e2 : timestamp &&& modulename = 0 := by decide
  refine ⟨?_, ?_, ?_⟩
  · rw [Nat.land_comm, Nat.and_or_distrib_left, e1, Nat.or_zero, Nat.land_comm]
  · rw [Nat.land_comm, Nat.and_or_distrib_left, e2, Nat.or_zero, Nat.land_comm]
  · intro h
    have := congrArg (fun x => Nat.testBit x 2) h
    have h4 : Nat.testBit 4 2 = true := by decide
    simp [modulename, Nat.testBit_and, Nat.testBit_or, h4] at this

/-- C17: `report` makes the same `writeline` calls whatever its options
argument is; the flag of every call is the `linefeeds` bit of the options
stored in the reporter, which are those given to the constructor (with
`modulename` added by the named constructor) and are left alone by `bind`. -/
theorem report_flag_from_stored_options (r : basic_reporter) (c : log_type) (t : String)
    (o1 o2 : option_type) :
    r.report c t o1 = r.report c t o2 ∧
      (∀ w ∈ r.report c t o1, w.endl = to_bool (r.mOptions &&& linefeeds)) ∧
      (∀ (opts : option_type) (binds : List (log_type × Nat)),
        (bind_all (basic_reporter.with_options opts) binds).mOptions = opts) ∧
      (∀ (n : String) (opts : option_type) (binds : List (log_type × Nat)),
        (bind_all (basic_reporter.with_module n opts) binds).mOptions &&& linefeeds =
          opts &&& linefeeds) := by
  refine ⟨rfl, ?_, ?_, ?_⟩
  · intro w hw
    simp only [basic_reporter.report, report_loop_eq, List.mem_map] at hw
    obtain ⟨b, _, rfl⟩ := hw
    rfl
  · intro opts binds
    exact (bind_all_frame _ binds).2
  · intro n opts binds
    rw [(bind_all_frame _ binds).2]
    exact (or_modulename_bits opts).1

/-- C18: a reporter constructed with the name `n` stores its options with
`modulename` added, whatever options it was given and whatever is bound
afterwards; a stream opened with these default options holds the time part
(if the given options have `timestamp`) followed by "[n] ". -/
theorem named_reporter_default_stream (s0 : State) (n : String) (opts : option_type)
    (binds : List (log_type × Nat)) (tstr : String) (c : log_type) :
    (let r := bind_all (basic_reporter.with_module n opts) binds
     let s : State := { s0 with reporter := r }
     let p := s.call_default tstr c
     r.mOptions = opts ||| modulename ∧ r.mOptions &&& modulename ≠ 0 ∧
       p.1.mOptions &&& modulename ≠ 0 ∧
       p.1.text p.2 = some ((if opts &&& timestamp ≠ 0 then cut_ctime tstr ++ " " else "") ++
         ("[" ++ n ++ "] "))) := by
  intro r s p
  have hf := bind_all_frame (basic_reporter.with_module n opts) binds
  have ho : r.mOptions = opts ||| modulename := hf.2
  have hn : r.mModuleName = n := hf.1
  have hb := or_modulename_bits opts
  have hm : r.mOptions &&& modulename ≠ 0 := by rw [ho]; exact hb.2.2
  have e0 : p.1.text p.2 = some (header r tstr r.mOptions) := text_call s tstr c r.mOptions
  have hp : p.1.mOptions = r.mOptions := (call_frame s tstr c r.mOptions).2.2.2.2
  refine ⟨ho, hm, by rw [hp]; exact hm, ?_⟩
  rw [e0, header, if_pos hm, hn, ho, hb.2.1]

/-! ## Empty lines -/

/-- C19: a stream opened with options that have neither `timestamp` nor
`modulename` has an empty buffer; destroyed without any insertion it still
invokes `report`, with the empty text, and every binding whose mask meets
the category receives exactly one `writeline` call with the empty text. -/
theorem empty_stream_still_reports (s : State) (tstr : String) (c : log_type)
    (o : option_type) (h1 : o &&& timestamp = 0) (h2 : o &&& modulename = 0) :
    (let p := s.call tstr c o
     let s1 := p.1.destroy p.2
     p.1.text p.2 = some "" ∧
       s1.reports = s.reports ++ [(c, "", o)] ∧
       s1.output = s.output ++
         (s.reporter.mOutput.filter (fun b => decide (b.1 &&& c ≠ 0))).map
           (fun b => { obj := b.2, str := "", endl := to_bool (s.reporter.mOptions &&& linefeeds) })) := by
  intro p s1
  have hc := call_frame s tstr c o
  have hh : header s.reporter tstr o = "" := by
    simp [header, h1, h2]
  have e0 : p.1.text p.2 = some "" := by
    have := text_call s tstr c o
    rw [hh] at this
    exact this
  refine ⟨e0, ?_, ?_⟩
  · show (p.1.destroy p.2).reports = _
    rw [destroy_of_text p.1 p.2 "" e0]
    show p.2.reports ++ [(p.1.mLog, "", p.1.mOptions)] = _
    rw [hc.2.1, hc.2.2.2.1, hc.2.2.2.2]
  · show (p.1.destroy p.2).output = _
    rw [destroy_of_text p.1 p.2 "" e0]
    show p.2.output ++ p.2.reporter.report p.1.mLog "" p.1.mOptions = _
    rw [hc.1, hc.2.2.1, hc.2.2.2.1]
    simp only [basic_reporter.report, report_loop_eq]

/-- C19 on a reporter with `linefeeds`, one object bound under `log` and one
under `error`, for a stream opened under `log` with the options `linefeeds`. -/
theorem empty_stream_still_reports_witness :
    (linefeeds &&& timestamp = 0 ∧ linefeeds &&& modulename = 0) ∧
    (let s := ((State.init (basic_reporter.with_options linefeeds)).bind 3 log).bind 4 error
     let p := s.call "" log linefeeds
     (p.1.destroy p.2).reports = s.reports ++ [(log, "", linefeeds)] ∧
       (p.1.destroy p.2).output = [{ obj := 3, str := "", endl := true }]) :=
  ⟨by decide,
    (empty_stream_still_reports
      (((State.init (basic_reporter.with_options linefeeds)).bind 3 log).bind 4 error)
      "" log linefeeds (by decide) (by decide)).2.1,
    by decide⟩

end sir
